import Mathlib

/-!
Verification of the ScoutLeadModule backend (`backend/src/index.js`).

The development shallowly embeds the backend's pure decision logic:
the enrichment field taxonomy, requested-field resolution, the heuristic
field-inference resolver, value normalization, the feed aggregator's
payload construction, and the run controller's start/conflict bookkeeping.
JS strings are Lean `String`s, JS `null`/absent values are `Option`,
JS arrays are `List`s, and epoch timestamps obtained from parsing ISO
date strings are `Nat`s. String primitives (trim, lower-casing, pattern
tests) are implemented over character lists so that they evaluate by
kernel reduction.
-/

namespace Scout

/-! ### JS string primitives -/

/-- The whitespace class of JS `\s` / `String.prototype.trim` (ASCII part). -/
def isJsWhitespace (c : Char) : Bool :=
  c = ' ' || c = '\t' || c = '\n' || c = '\r' || c = '\x0b' || c = '\x0c'

/-- `String.prototype.trim`. -/
def jsTrim (s : String) : String :=
  ⟨(((s.data.dropWhile isJsWhitespace).reverse.dropWhile isJsWhitespace).reverse)⟩

/-- `String.prototype.toLowerCase` (ASCII). -/
def jsToLower (s : String) : String := ⟨s.data.map Char.toLower⟩

/-- Whether `needle` occurs as a contiguous subsequence of `haystack`. -/
def containsSeq (needle : List Char) : List Char → Bool
  | [] => needle.isEmpty
  | c :: t => needle.isPrefixOf (c :: t) || containsSeq needle t

/-- `haystack.includes(needle)` on JS strings. -/
def jsIncludes (haystack needle : String) : Bool :=
  containsSeq needle.data haystack.data

/-- Truthiness of a JS string: only the empty string is falsy. -/
def jsTruthy (s : String) : Bool := s ≠ ""

/-- Truthiness of a nullable JS string (`null`/`undefined` and `""` are falsy). -/
def jsTruthyO : Option String → Bool
  | some s => jsTruthy s
  | none => false

/-- JS `a || b` on nullable strings, as used for fallback chains. -/
def orTruthy (a b : Option String) : Option String :=
  if jsTruthyO a then a else b

/-! ### Field taxonomy -/

/-- One entry of the `ENRICHMENT_FIELDS` taxonomy constant. The provider
instruction strings are carried verbatim into provider requests only and do
not influence any logic verified here, so they are not reproduced. -/
structure FieldDef where
  label : String
  format : String
  deriving DecidableEq

/-- The `ENRICHMENT_FIELDS` constant: field key to definition, in the source's
insertion (iteration) order. -/
def ENRICHMENT_FIELDS : List (String × FieldDef) :=
  [ ("email", ⟨"Work Email", "email"⟩)
  , ("phone", ⟨"Work Phone", "phone"⟩)
  , ("linkedinUrl", ⟨"LinkedIn URL", "url"⟩)
  , ("primaryContactChannel", ⟨"Best Contact Channel", "text"⟩)
  , ("leadType", ⟨"Lead Type", "text"⟩)
  , ("geoLocation", ⟨"Location", "text"⟩)
  , ("employeeCount", ⟨"Company Size", "text"⟩)
  , ("buyingIntent", ⟨"Buying Intent", "options"⟩)
  , ("buyingIntentReason", ⟨"Buying Intent Reason", "text"⟩)
  , ("partnershipIntentLevel", ⟨"Partnership Intent", "options"⟩)
  , ("partnershipIntentReason", ⟨"Partnership Intent Reason", "text"⟩)
  , ("audienceOverlapScore", ⟨"Audience Overlap Score", "text"⟩)
  , ("audienceOverlapReason", ⟨"Audience Overlap Reason", "text"⟩)
  , ("estimatedReachBand", ⟨"Estimated Reach", "text"⟩)
  , ("roleSeniorityBand", ⟨"Role Seniority", "text"⟩)
  , ("investorIntentLevel", ⟨"Investor Intent", "options"⟩)
  , ("investorIntentReason", ⟨"Investor Intent Reason", "text"⟩)
  , ("categoryFitScore", ⟨"Category Fit Score", "text"⟩)
  , ("categoryFitReason", ⟨"Category Fit Reason", "text"⟩) ]

/-- The string-named properties every plain JS object literal inherits from
`Object.prototype`. Their values (methods, and the `__proto__` accessor
yielding `Object.prototype` itself) are all truthy, so property access on an
object literal is truthy for these names even though they are not own keys. -/
def OBJECT_PROTOTYPE_KEYS : List String :=
  ["constructor", "hasOwnProperty", "isPrototypeOf", "propertyIsEnumerable",
   "toLocaleString", "toString", "valueOf", "__proto__", "__defineGetter__",
   "__defineSetter__", "__lookupGetter__", "__lookupSetter__"]

/-- The truthiness test `ENRICHMENT_FIELDS[key]` used throughout the backend:
truthy for the table's 19 own keys and, because `ENRICHMENT_FIELDS` is a
plain object literal, also for the keys inherited from `Object.prototype`. -/
def isEnrichmentField (key : String) : Bool :=
  (ENRICHMENT_FIELDS.lookup key).isSome || OBJECT_PROTOTYPE_KEYS.contains key

/-- `DEFAULT_ENRICHMENT_FIELDS`. -/
def DEFAULT_ENRICHMENT_FIELDS : List String := ["email", "phone"]

/-- `LEADSET_ENRICHMENT_FIELD_MAP`: raw leadset field names to taxonomy keys. -/
def LEADSET_ENRICHMENT_FIELD_MAP : List (String × String) :=
  [ ("contact_email", "email")
  , ("contact_phone", "phone")
  , ("has_linkedin_messaging", "linkedinUrl")
  , ("linkedin_url", "linkedinUrl")
  , ("primary_contact_channel", "primaryContactChannel")
  , ("lead_type", "leadType")
  , ("geo_location", "geoLocation")
  , ("company_size_band", "employeeCount")
  , ("buying_intent_level", "buyingIntent")
  , ("buying_intent_reason", "buyingIntentReason")
  , ("partnership_intent_level", "partnershipIntentLevel")
  , ("partnership_intent_reason", "partnershipIntentReason")
  , ("audience_overlap_score", "audienceOverlapScore")
  , ("audience_overlap_reason", "audienceOverlapReason")
  , ("estimated_reach_band", "estimatedReachBand")
  , ("role_seniority_band", "roleSeniorityBand")
  , ("investor_intent_level", "investorIntentLevel")
  , ("investor_intent_reason", "investorIntentReason")
  , ("category_fit_score", "categoryFitScore")
  , ("category_fit_reason", "categoryFitReason") ]

/-! ### Requested-field resolution -/

/-- First-occurrence deduplication, the effect of collecting into a JS `Set`
and reading it back with `Array.from`. -/
def dedupFirstAux : List String → List String → List String
  | _, [] => []
  | seen, x :: xs =>
    if seen.contains x then dedupFirstAux seen xs
    else x :: dedupFirstAux (x :: seen) xs

/-- First-occurrence deduplication of a list. -/
def dedupFirst (l : List String) : List String := dedupFirstAux [] l

/-- `getAllowedEnrichmentFieldsForLeadset`: map the leadset's raw
`enrichment_fields` (`none` models a missing / non-array value) through
`LEADSET_ENRICHMENT_FIELD_MAP`, keeping only known taxonomy keys, deduplicated
in first-occurrence order. A raw name that is an `Object.prototype` key makes
`LEADSET_ENRICHMENT_FIELD_MAP[raw]` truthy in JS, but the inherited function
value then stringifies to a non-key under the second check
`ENRICHMENT_FIELDS[key]` and is not added, so the literal-table lookup below
is extensionally faithful and the allowlist holds own taxonomy keys only. -/
def getAllowedEnrichmentFieldsForLeadset (enrichmentFields : Option (List String)) :
    List String :=
  dedupFirst ((enrichmentFields.getD []).filterMap fun raw =>
    match LEADSET_ENRICHMENT_FIELD_MAP.lookup raw with
    | some key => if isEnrichmentField key then some key else none
    | none => none)

/-- The `cleanedRequested` list of `normalizeRequestedFields`: trim string
entries, map non-string entries to `""`, drop falsy entries, deduplicate. -/
def cleanedRequestedFields (l : List (Option String)) : List String :=
  dedupFirst ((l.map fun f =>
    match f with
    | some s => jsTrim s
    | none => "").filter (fun s => s ≠ ""))

/-- The `candidates` list of `normalizeRequestedFields`: the cleaned explicit
request if one was given, else the leadset allowlist when it is non-empty. -/
def requestedCandidates (fieldsInput : Option (List (Option String)))
    (allowed : List String) : List String :=
  match fieldsInput with
  | some l =>
    if l.isEmpty then (if allowed.isEmpty then [] else allowed)
    else cleanedRequestedFields l
  | none => if allowed.isEmpty then [] else allowed

/-- The `valid` list of `normalizeRequestedFields`: candidates that are known
taxonomy keys and (when an allowlist is present) allowed. -/
def validRequestedFields (fieldsInput : Option (List (Option String)))
    (allowed : List String) : List String :=
  (requestedCandidates fieldsInput allowed).filter fun field =>
    isEnrichmentField field && (allowed.isEmpty || allowed.contains field)

/-- `normalizeRequestedFields`. `fieldsInput` is the request body's `fields`
value: `none` models a non-array value, and inside the array `none` models a
non-string element. `allowed` is the (always array-valued) allowlist the
routes pass in, from `getAllowedEnrichmentFieldsForLeadset`. -/
def normalizeRequestedFields (fieldsInput : Option (List (Option String)))
    (allowed : List String) : List String :=
  if (validRequestedFields fieldsInput allowed).isEmpty then
    if allowed.isEmpty then DEFAULT_ENRICHMENT_FIELDS
    else if (DEFAULT_ENRICHMENT_FIELDS.filter (allowed.contains ·)).isEmpty then allowed
    else DEFAULT_ENRICHMENT_FIELDS.filter (allowed.contains ·)
  else validRequestedFields fieldsInput allowed

/-- Outcome of the requested-field resolution step of
`POST /leadsets/:leadsetId/runs/:runId/enrich`: either the invalid-fields
rejection (HTTP 400) or the resolved field list the route proceeds with. -/
inductive EnrichFieldsResolution where
  | invalidFields (fields : List String)
  | proceed (fields : List String)
  deriving DecidableEq

/-- The enrich route's field-resolution step: resolve the allowlist, normalize
the requested fields, and reject if any resolved field is unknown. -/
def resolveEnrichmentRequest (enrichmentFields : Option (List String))
    (fieldsInput : Option (List (Option String))) : EnrichFieldsResolution :=
  let allowed := getAllowedEnrichmentFieldsForLeadset enrichmentFields
  let requestedFields := normalizeRequestedFields fieldsInput allowed
  let invalid := requestedFields.filter (fun f => !(isEnrichmentField f))
  if !invalid.isEmpty then .invalidFields invalid
  else .proceed requestedFields

/-! ### Helper lemmas about field resolution -/

theorem contains_mem {a : String} {l : List String} (h : l.contains a = true) :
    a ∈ l := by
  simpa using h

theorem mem_dedupFirstAux {a : String} :
    ∀ {l seen : List String}, a ∈ dedupFirstAux seen l → a ∈ l := by
  intro l
  induction l with
  | nil => intro seen h; simp [dedupFirstAux] at h
  | cons x xs ih =>
    intro seen h
    unfold dedupFirstAux at h
    split at h
    · exact List.mem_cons_of_mem _ (ih h)
    · rcases List.mem_cons.mp h with h | h
      · exact h ▸ List.mem_cons_self _ _
      · exact List.mem_cons_of_mem _ (ih h)

theorem mem_dedupFirst {a : String} {l : List String} (h : a ∈ dedupFirst l) :
    a ∈ l := mem_dedupFirstAux h

theorem allowed_fields_known {enrichmentFields : Option (List String)} {f : String}
    (h : f ∈ getAllowedEnrichmentFieldsForLeadset enrichmentFields) :
    isEnrichmentField f = true := by
  unfold getAllowedEnrichmentFieldsForLeadset at h
  have h' := mem_dedupFirst h
  rcases List.mem_filterMap.mp h' with ⟨raw, _, hmap⟩
  rcases hk : LEADSET_ENRICHMENT_FIELD_MAP.lookup raw with _ | key
  · rw [hk] at hmap; simp at hmap
  · rw [hk] at hmap
    by_cases hv : isEnrichmentField key
    · simp only [hv, if_true] at hmap
      exact Option.some.inj hmap ▸ hv
    · simp [hv] at hmap

theorem lookup_mem_values {α β : Type} [BEq α] {l : List (α × β)} {a : α} {b : β}
    (h : l.lookup a = some b) : b ∈ l.map Prod.snd := by
  induction l with
  | nil => cases h
  | cons kv t ih =>
    rcases kv with ⟨k1, v1⟩
    simp only [List.lookup] at h
    cases hbeq : a == k1
    · rw [hbeq] at h
      exact List.mem_cons_of_mem _ (ih h)
    · rw [hbeq] at h
      simp only [Option.some.injEq] at h
      simp [← h]

theorem mapped_values_own {raw key : String}
    (h : LEADSET_ENRICHMENT_FIELD_MAP.lookup raw = some key) :
    (ENRICHMENT_FIELDS.lookup key).isSome = true := by
  have hm := lookup_mem_values h
  fin_cases hm <;> decide

theorem allowed_fields_own {enrichmentFields : Option (List String)} {f : String}
    (h : f ∈ getAllowedEnrichmentFieldsForLeadset enrichmentFields) :
    (ENRICHMENT_FIELDS.lookup f).isSome = true := by
  unfold getAllowedEnrichmentFieldsForLeadset at h
  have h' := mem_dedupFirst h
  rcases List.mem_filterMap.mp h' with ⟨raw, _, hmap⟩
  rcases hk : LEADSET_ENRICHMENT_FIELD_MAP.lookup raw with _ | key
  · rw [hk] at hmap; simp at hmap
  · rw [hk] at hmap
    by_cases hv : isEnrichmentField key
    · simp only [hv, if_true] at hmap
      exact Option.some.inj hmap ▸ mapped_values_own hk
    · simp [hv] at hmap

theorem isEnrichmentField_cases {f : String} (h : isEnrichmentField f = true) :
    (ENRICHMENT_FIELDS.lookup f).isSome = true ∨ f ∈ OBJECT_PROTOTYPE_KEYS := by
  unfold isEnrichmentField at h
  rcases (Bool.or_eq_true _ _).mp h with h | h
  · exact Or.inl h
  · exact Or.inr (contains_mem h)

theorem normalizeRequestedFields_nonempty (fieldsInput : Option (List (Option String)))
    (allowed : List String) : normalizeRequestedFields fieldsInput allowed ≠ [] := by
  unfold normalizeRequestedFields
  by_cases h1 : (validRequestedFields fieldsInput allowed).isEmpty
  · rw [if_pos h1]
    by_cases h2 : allowed.isEmpty
    · rw [if_pos h2]; decide
    · rw [if_neg h2]
      by_cases h3 : (DEFAULT_ENRICHMENT_FIELDS.filter (allowed.contains ·)).isEmpty
      · rw [if_pos h3]
        exact fun hc => h2 (List.isEmpty_iff.mpr hc)
      · rw [if_neg h3]
        exact fun hc => h3 (List.isEmpty_iff.mpr hc)
  · rw [if_neg h1]
    exact fun hc => h1 (List.isEmpty_iff.mpr hc)

theorem normalizeRequestedFields_known (fieldsInput : Option (List (Option String)))
    (allowed : List String) (hallow : ∀ f ∈ allowed, isEnrichmentField f = true) :
    ∀ f ∈ normalizeRequestedFields fieldsInput allowed, isEnrichmentField f = true := by
  intro f hf
  unfold normalizeRequestedFields at hf
  by_cases h1 : (validRequestedFields fieldsInput allowed).isEmpty
  · rw [if_pos h1] at hf
    by_cases h2 : allowed.isEmpty
    · rw [if_pos h2] at hf
      fin_cases hf <;> decide
    · rw [if_neg h2] at hf
      by_cases h3 : (DEFAULT_ENRICHMENT_FIELDS.filter (allowed.contains ·)).isEmpty
      · rw [if_pos h3] at hf
        exact hallow f hf
      · rw [if_neg h3] at hf
        have := (List.mem_filter.mp hf).1
        fin_cases this <;> decide
  · rw [if_neg h1] at hf
    have := (List.mem_filter.mp hf).2
    exact (Bool.and_eq_true _ _ ▸ this).1

theorem normalizeRequestedFields_allowed (fieldsInput : Option (List (Option String)))
    (allowed : List String) (hne : allowed ≠ []) :
    ∀ f ∈ normalizeRequestedFields fieldsInput allowed, f ∈ allowed := by
  intro f hf
  unfold normalizeRequestedFields at hf
  have hemp : allowed.isEmpty = false := by
    cases hv : allowed.isEmpty
    · rfl
    · exact absurd (List.isEmpty_iff.mp hv) hne
  by_cases h1 : (validRequestedFields fieldsInput allowed).isEmpty
  · rw [if_pos h1, hemp] at hf
    simp only [Bool.false_eq_true, if_false] at hf
    by_cases h3 : (DEFAULT_ENRICHMENT_FIELDS.filter (allowed.contains ·)).isEmpty
    · rwa [if_pos h3] at hf
    · rw [if_neg h3] at hf
      exact contains_mem (List.mem_filter.mp hf).2
  · rw [if_neg h1] at hf
    have := (List.mem_filter.mp hf).2
    have h2 := (Bool.and_eq_true _ _ ▸ this).2
    rcases (Bool.or_eq_true _ _).mp h2 with h | h
    · rw [hemp] at h; exact absurd h (by decide)
    · exact contains_mem h

/-! ### Claims C10 and C2 -/

/-- Claim C10 counterexample: `ENRICHMENT_FIELDS` is a plain object literal,
so the truthiness test `ENRICHMENT_FIELDS[field]` also passes for keys
inherited from `Object.prototype`. Requesting `["toString"]` on a leadset
with an empty mapped allowlist makes `normalizeRequestedFields` return
`["toString"]`, which is not a Field Taxonomy key — the returned plan is not
always made of known taxonomy keys. -/
theorem C10_counterexample :
    normalizeRequestedFields (some [some "toString"])
        (getAllowedEnrichmentFieldsForLeadset none) = ["toString"] ∧
    (ENRICHMENT_FIELDS.lookup "toString").isSome = false := by
  refine ⟨by decide, by decide⟩

/-- Claim C10 amended: requested-field resolution is total and never yields
an empty plan, and every returned field passes the code's truthiness test
`ENRICHMENT_FIELDS[field]` — a test satisfied by the 19 own taxonomy keys
and by the keys inherited from `Object.prototype` (e.g. `toString`), so a
requested prototype key can be returned as-is. When the leadset's mapped
allowlist is non-empty, every returned field moreover belongs to the
allowlist and is a genuine own taxonomy key. -/
theorem C10_normalizeRequestedFields_total_amended
    (enrichmentFields : Option (List String))
    (fieldsInput : Option (List (Option String))) :
    normalizeRequestedFields fieldsInput
        (getAllowedEnrichmentFieldsForLeadset enrichmentFields) ≠ [] ∧
    (∀ f ∈ normalizeRequestedFields fieldsInput
        (getAllowedEnrichmentFieldsForLeadset enrichmentFields),
      (ENRICHMENT_FIELDS.lookup f).isSome = true ∨ f ∈ OBJECT_PROTOTYPE_KEYS) ∧
    (getAllowedEnrichmentFieldsForLeadset enrichmentFields ≠ [] →
      ∀ f ∈ normalizeRequestedFields fieldsInput
          (getAllowedEnrichmentFieldsForLeadset enrichmentFields),
        f ∈ getAllowedEnrichmentFieldsForLeadset enrichmentFields ∧
        (ENRICHMENT_FIELDS.lookup f).isSome = true) :=
  ⟨normalizeRequestedFields_nonempty _ _,
   fun f hf => isEnrichmentField_cases
     (normalizeRequestedFields_known _ _ (fun _ ha => allowed_fields_known ha) f hf),
   fun hne f hf =>
     ⟨normalizeRequestedFields_allowed _ _ hne f hf,
      allowed_fields_own (normalizeRequestedFields_allowed _ _ hne f hf)⟩⟩

/-- Witness for the amended C10 theorem, at the prototype-key request the
counterexample uses and at an allowlisted request. -/
theorem C10_normalizeRequestedFields_total_amended_witness :
    normalizeRequestedFields (some [some "toString"])
      (getAllowedEnrichmentFieldsForLeadset none) ≠ [] ∧
    normalizeRequestedFields (some [some "email", some "bogusKey"])
      (getAllowedEnrichmentFieldsForLeadset (some ["contact_phone"])) ≠ [] :=
  ⟨(C10_normalizeRequestedFields_total_amended none (some [some "toString"])).1,
   (C10_normalizeRequestedFields_total_amended (some ["contact_phone"])
     (some [some "email", some "bogusKey"])).1⟩

/-- Claim C2 counterexample: a request whose field list contains only the
unknown key `"totallyUnknownField"` is not rejected with the invalid-fields
condition; the route silently proceeds with the default fallback field set. -/
theorem C2_counterexample :
    isEnrichmentField "totallyUnknownField" = false ∧
    resolveEnrichmentRequest none (some [some "totallyUnknownField"]) =
      .proceed ["email", "phone"] := by
  constructor
  · decide
  · decide

/-- Claim C2 amended: `requestEnrichment` never rejects with the invalid-fields
condition. Unknown requested keys are silently dropped by
`normalizeRequestedFields` and the fallback resolution applies, so the
invalid-fields check downstream of it always sees an empty list and the route
always proceeds with the resolved field set. -/
theorem C2_invalid_fields_branch_unreachable (enrichmentFields : Option (List String))
    (fieldsInput : Option (List (Option String))) :
    resolveEnrichmentRequest enrichmentFields fieldsInput =
      .proceed (normalizeRequestedFields fieldsInput
        (getAllowedEnrichmentFieldsForLeadset enrichmentFields)) := by
  unfold resolveEnrichmentRequest
  have hknown := normalizeRequestedFields_known fieldsInput
    (getAllowedEnrichmentFieldsForLeadset enrichmentFields)
    (fun _ hf => allowed_fields_known hf)
  have hempty : (normalizeRequestedFields fieldsInput
      (getAllowedEnrichmentFieldsForLeadset enrichmentFields)).filter
        (fun f => !(isEnrichmentField f)) = [] := by
    rw [List.filter_eq_nil_iff]
    intro a ha
    simp [hknown a ha]
  simp [hempty]

/-- Witness for the amended C2 theorem at a concrete request. -/
theorem C2_invalid_fields_branch_unreachable_witness :
    resolveEnrichmentRequest (some ["contact_email"]) (some [some "phone "]) =
      .proceed (normalizeRequestedFields (some [some "phone "])
        (getAllowedEnrichmentFieldsForLeadset (some ["contact_email"]))) :=
  C2_invalid_fields_branch_unreachable (some ["contact_email"])
    (some [some "phone "])

/-! ### Field-inference resolver (`extractFieldFromEnrichment`) -/

/-- One provider enrichment result attached to an item, as consumed by the
resolver: `metadata?.field`, `description || ''`, `format`, the result payload
(`none` models an absent result, the list models the array-of-strings shape),
and the provider status. -/
structure ExaEnrichment where
  metadataField : Option String
  description : String
  format : Option String
  result : Option (List String)
  status : String

/-- The `ScoutField::` description marker prepended to enrichment
instructions (the source constant whose name mentions the marker role). -/
def FIELD_DESCRIPTION_MARKER : String := "ScoutField::"

/-- Split a character list on a separator character (`String.prototype.split`
with a single-character separator). -/
def splitOnChar (sep : Char) : List Char → List (List Char)
  | [] => [[]]
  | c :: rest =>
    match splitOnChar sep rest with
    | [] => [[]]
    | h :: t => if c = sep then [] :: h :: t else (c :: h) :: t

/-- Characters before the first `::`, i.e. `description.split('::')[0]`. -/
def takeUntilDoubleColon : List Char → List Char
  | ':' :: ':' :: _ => []
  | c :: rest => c :: takeUntilDoubleColon rest
  | [] => []

/-- The field key parsed out of a `ScoutField::key::instructions` description:
drop the 12-character marker, take up to the next `::`. -/
def descriptionTagKey (description : String) : String :=
  ⟨takeUntilDoubleColon (description.data.drop 12)⟩

/-- Strategy 4: first taxonomy entry whose key or label occurs in the
lower-cased description. -/
def inferFromDescriptionContent (description : String) : Option String :=
  (ENRICHMENT_FIELDS.find? fun kv =>
    jsIncludes (jsToLower description) (jsToLower kv.1) ||
    jsIncludes (jsToLower description) (jsToLower kv.2.label)).map (·.1)

/-- The regex `^(high|medium|low)(:|$)` with the `i` flag, applied to the
trimmed result string. -/
def hmlMatch (t : String) : Bool :=
  ["high", "medium", "low"].any fun w =>
    jsToLower t = w || (w ++ ":").data.isPrefixOf (jsToLower t).data

/-- The strict range regex `^\d+-\d+$`. -/
def isRangeFormChars (l : List Char) : Bool :=
  match l.drop (l.takeWhile Char.isDigit).length with
  | '-' :: r2 =>
    !(l.takeWhile Char.isDigit).isEmpty && !r2.isEmpty && r2.all Char.isDigit
  | _ => false

/-- The strict range regex `^\d+-\d+$` on a string. -/
def isRangeForm (s : String) : Bool := isRangeFormChars s.data

/-- The range regex `^\d+-\d+\+?$` (optional trailing `+`). -/
def isRangePlusForm (s : String) : Bool :=
  let l := s.data
  let d1 := l.takeWhile Char.isDigit
  match l.drop d1.length with
  | '-' :: r2 =>
    let d2 := r2.takeWhile Char.isDigit
    !d1.isEmpty && !d2.isEmpty &&
      (let rest2 := r2.drop d2.length
       rest2.isEmpty || rest2 = ['+'])
  | _ => false

/-- Partnership-intent-reason vocabulary test on the lower-cased result. -/
def partnershipReasonMatch (lowerResult : String) : Bool :=
  jsIncludes lowerResult "partnership intent" ||
  (jsIncludes lowerResult "partnership" &&
    (jsIncludes lowerResult "shows" || jsIncludes lowerResult "due to" ||
     jsIncludes lowerResult "because"))

/-- Buying-intent-reason vocabulary test on the lower-cased result. -/
def buyingReasonMatch (lowerResult : String) : Bool :=
  jsIncludes lowerResult "buying intent" || jsIncludes lowerResult "purchase intent" ||
  (jsIncludes lowerResult "intent" && !jsIncludes lowerResult "partnership" &&
    (jsIncludes lowerResult "shows" || jsIncludes lowerResult "due to" ||
     jsIncludes lowerResult "because"))

/-- A character admissible in the local and domain parts of the email regex
(`[^\s@]`). -/
def emailPartChar (c : Char) : Bool := !(isJsWhitespace c) && c ≠ '@'

/-- The email test: `resultStr.includes('@')` and the trimmed string matches
`^[^\s@]+@[^\s@]+\.[^\s@]+$`. -/
def emailShape (resultStr : String) : Bool :=
  jsIncludes resultStr "@" &&
  (match splitOnChar '@' (jsTrim resultStr).data with
   | [localPart, domainPart] =>
     !localPart.isEmpty && localPart.all emailPartChar &&
     domainPart.all emailPartChar && ((domainPart.drop 1).dropLast.contains '.')
   | _ => false)

/-- A character of the phone class `[\d\s\-\+\(\)]`. -/
def phoneChar (c : Char) : Bool :=
  c.isDigit || isJsWhitespace c || c = '-' || c = '+' || c = '(' || c = ')'

/-- The phone test: the trimmed string is one-plus phone-class characters and
the result contains at least ten digits. -/
def phoneShape (resultStr : String) : Bool :=
  !(jsTrim resultStr).data.isEmpty && (jsTrim resultStr).data.all phoneChar &&
  (resultStr.data.filter Char.isDigit).length ≥ 10

/-- An ASCII letter (both `[A-Z]` and `[a-z]` under the regex `i` flag). -/
def isAsciiLetter (c : Char) : Bool := c.isAlpha

mutual

/-- Scanner state inside a word of the location pattern `[A-Z][a-z]+`
(≥ 2 letters per word), `n` letters seen so far in the current word. -/
def geoWordScan : List Char → Nat → Bool
  | [], n => n ≥ 2
  | c :: rest, n =>
    if isAsciiLetter c then geoWordScan rest (n + 1)
    else if isJsWhitespace c && n ≥ 2 then geoGapScan rest
    else false

/-- Scanner state inside the `\s+` gap between words of the location
pattern. -/
def geoGapScan : List Char → Bool
  | [] => false
  | c :: rest =>
    if isAsciiLetter c then geoWordScan rest 1
    else if isJsWhitespace c then geoGapScan rest
    else false

end

/-- A word sequence `[A-Z][a-z]+(\s+[A-Z][a-z]+)*` (under the `i` flag). -/
def wordSeqChars (l : List Char) : Bool :=
  match l with
  | [] => false
  | c :: rest => if isAsciiLetter c then geoWordScan rest 1 else false

/-- The location regex: word sequence, comma, optional spaces, word
sequence. -/
def geoShape (t : String) : Bool :=
  match splitOnChar ',' t.data with
  | [a, b] => wordSeqChars a && wordSeqChars (b.dropWhile isJsWhitespace)
  | _ => false

/-- The contact-channel keyword test on the lower-cased (untrimmed) result. -/
def channelMatch (lowerResult : String) : Bool :=
  jsIncludes lowerResult "linkedin dm" || jsIncludes lowerResult "work email" ||
  jsIncludes lowerResult "website form" || lowerResult = "phone" ||
  lowerResult = "email"

/-- The lead-type keyword test `^(retailer|...)` with the `i` flag on the
trimmed result. -/
def leadTypeMatch (t : String) : Bool :=
  ["retailer", "distributor", "influencer", "expert", "investor", "creator",
   "consultant", "brand", "agency", "platform"].any fun w =>
    w.data.isPrefixOf (jsToLower t).data

/-- A JS regex word character (`\w`). -/
def isWordChar (c : Char) : Bool := c.isAlphanum || c = '_'

/-- Whether the text contains `10` followed by a word boundary (`10\b`). -/
def containsTenBoundary : List Char → Bool
  | [] => false
  | '1' :: '0' :: rest =>
    (match rest with
     | [] => true
     | c :: _ => !isWordChar c) || containsTenBoundary ('0' :: rest)
  | _ :: rest => containsTenBoundary rest

/-- The audience-overlap test: `^[1-9]|10\b` on the trimmed result, and the
lower-cased result mentions overlap/audience or the trimmed result is exactly
`1`–`9` or `10`. -/
def audienceOverlapMatch (t lowerResult : String) : Bool :=
  ((match t.data with
    | c :: _ => c.isDigit && c ≠ '0'
    | [] => false) || containsTenBoundary t.data) &&
  (jsIncludes lowerResult "overlap" || jsIncludes lowerResult "audience" ||
    (match t.data with
     | [c] => c.isDigit && c ≠ '0'
     | _ => t = "10"))

/-- Strategy 5: infer the field from the shape of the result content, first
match wins, in the source's evaluation order. -/
def inferFromResultContent (resultStr : String) : Option String :=
  if hmlMatch (jsTrim resultStr) then
    if jsIncludes (jsToLower resultStr) "partnership" ||
        jsIncludes (jsToLower resultStr) "collaborat" then
      some "partnershipIntentLevel"
    else some "buyingIntent"
  else if isRangeForm (jsTrim resultStr) || isRangePlusForm (jsTrim resultStr) then
    some "employeeCount"
  else if partnershipReasonMatch (jsToLower resultStr) then
    some "partnershipIntentReason"
  else if buyingReasonMatch (jsToLower resultStr) then
    some "buyingIntentReason"
  else if emailShape resultStr then some "email"
  else if phoneShape resultStr then some "phone"
  else if jsIncludes (jsToLower resultStr) "linkedin.com/" ||
      jsIncludes (jsToLower resultStr) "linkedin.com\\" then
    some "linkedinUrl"
  else if geoShape (jsTrim resultStr) then some "geoLocation"
  else if channelMatch (jsToLower resultStr) then some "primaryContactChannel"
  else if leadTypeMatch (jsTrim resultStr) then some "leadType"
  else if audienceOverlapMatch (jsTrim resultStr) (jsToLower resultStr) then
    some "audienceOverlapScore"
  else none

/-- The first array entry that is a non-blank string, else `''`. -/
def resultStrOf (entries : List String) : String :=
  match entries.find? (fun entry => jsTrim entry ≠ "") with
  | some s => s
  | none => ""

/-- `extractFieldFromEnrichment`: the ordered five-strategy cascade. -/
def extractFieldFromEnrichment (e : ExaEnrichment) : Option String :=
  if (match e.metadataField with
      | some k => jsTruthy k && isEnrichmentField k
      | none => false) then
    e.metadataField
  else if FIELD_DESCRIPTION_MARKER.data.isPrefixOf e.description.data &&
      isEnrichmentField (descriptionTagKey e.description) then
    some (descriptionTagKey e.description)
  else if (match e.format with
           | some f => jsTruthy f && isEnrichmentField f
           | none => false) then
    e.format
  else match inferFromDescriptionContent e.description with
    | some k => some k
    | none =>
      match e.result with
      | some entries =>
        if resultStrOf entries ≠ "" then inferFromResultContent (resultStrOf entries)
        else none
      | none => none

/-! ### Value normalization (`normalizeEmployeeCount`) -/

/-- The first maximal digit run of the text (`str.match(/\d+/)`). -/
def firstNumberChars : List Char → Option (List Char)
  | [] => none
  | c :: rest =>
    if c.isDigit then some (c :: rest.takeWhile Char.isDigit)
    else firstNumberChars rest

/-- Decimal value of a digit run (`parseInt(…, 10)`). -/
def digitsToNat (l : List Char) : Nat :=
  l.foldl (fun acc c => acc * 10 + (c.toNat - 48)) 0

/-- `normalizeEmployeeCount`: keep range-form inputs, else bucket the first
number; `none` models the JS `null` unset sentinel. -/
def normalizeEmployeeCount (value : String) : Option String :=
  if value = "" then none
  else if isRangeForm (jsTrim value) then some (jsTrim value)
  else match firstNumberChars (jsTrim value).data with
    | none => none
    | some ds =>
      let num := digitsToNat ds
      if num ≤ 10 then some "1-10"
      else if num ≤ 50 then some "11-50"
      else if num ≤ 200 then some "51-200"
      else if num ≤ 500 then some "201-500"
      else if num ≤ 1000 then some "501-1000"
      else if num ≤ 5000 then some "1001-5000"
      else if num ≤ 10000 then some "5001-10000"
      else if num ≤ 25000 then some "10001-25000"
      else some "25001+"

/-- The bucket table exactly as the spec states it (for comparison with the
code's behaviour). -/
def specEmployeeBucket (n : Nat) : String :=
  if n ≤ 10 then "1-10"
  else if n ≤ 50 then "11-50"
  else if n ≤ 200 then "51-200"
  else if n ≤ 500 then "201-500"
  else if n ≤ 1000 then "501-1000"
  else if n ≤ 5000 then "1001-5000"
  else if n ≤ 10000 then "5001-10000"
  else if n ≤ 25000 then "10001-25000"
  else "25001+"

/-! ### Helper lemmas about string shapes -/

theorem firstNumberChars_eq_none {l : List Char}
    (h : ∀ c ∈ l, c.isDigit = false) : firstNumberChars l = none := by
  induction l with
  | nil => rfl
  | cons c rest ih =>
    unfold firstNumberChars
    rw [h c (List.mem_cons_self _ _)]
    exact ih fun c hc => h c (List.mem_cons_of_mem _ hc)

theorem isRangeFormChars_eq_false {l : List Char}
    (h : ∀ c ∈ l, c.isDigit = false) : isRangeFormChars l = false := by
  have htake : l.takeWhile Char.isDigit = [] := by
    cases l with
    | nil => rfl
    | cons c rest =>
      simp [List.takeWhile_cons, h c (List.mem_cons_self _ _)]
  unfold isRangeFormChars
  rw [htake]
  simp only [List.length_nil, List.drop_zero, List.isEmpty_nil, Bool.not_true,
    Bool.false_and]
  split <;> rfl

theorem mem_jsTrim {c : Char} {s : String} (h : c ∈ (jsTrim s).data) :
    c ∈ s.data := by
  unfold jsTrim at h
  simp only at h
  have h1 := List.mem_reverse.mp h
  have h2 := (List.dropWhile_sublist (l := (s.data.dropWhile isJsWhitespace).reverse)
    (p := isJsWhitespace)).mem h1
  have h3 := List.mem_reverse.mp h2
  exact (List.dropWhile_sublist (l := s.data) (p := isJsWhitespace)).mem h3

/-! ### Claims C6, C7, C8 -/

/-- Claim C6 counterexample: the string `123456-78901` matches both the
phone-number character class with at least ten digits and the numeric range
pattern, yet the resolver returns `employeeCount`, not `phone` — the range
check runs before the phone check, contrary to the order the claim states. -/
theorem C6_counterexample :
    phoneShape "123456-78901" = true ∧
    isRangePlusForm (jsTrim "123456-78901") = true ∧
    extractFieldFromEnrichment
        ⟨none, "", none, some ["123456-78901"], "completed"⟩ =
      some "employeeCount" := by
  refine ⟨by decide, by decide, by decide⟩

/-- Claim C6 amended: the content-shape heuristics run in the source order
High/Medium/Low token, numeric range, partnership-reason vocabulary,
buying-reason vocabulary, email, phone, professional-network URL, location,
contact channel, lead type, audience overlap; so a result matching the range
pattern (and not the earlier High/Medium/Low pattern) resolves to
`employeeCount` even when it also matches the phone shape, and phone wins only
over the shapes after it. -/
theorem C6_strategy5_order :
    (∀ s : String, hmlMatch (jsTrim s) = false →
      (isRangeForm (jsTrim s) || isRangePlusForm (jsTrim s)) = true →
      inferFromResultContent s = some "employeeCount") ∧
    (∀ s : String, hmlMatch (jsTrim s) = false →
      (isRangeForm (jsTrim s) || isRangePlusForm (jsTrim s)) = false →
      partnershipReasonMatch (jsToLower s) = false →
      buyingReasonMatch (jsToLower s) = false →
      emailShape s = false →
      phoneShape s = true →
      inferFromResultContent s = some "phone") := by
  constructor
  · intro s h1 h2
    unfold inferFromResultContent
    rw [h1, h2]
    rfl
  · intro s h1 h2 h3 h4 h5 h6
    unfold inferFromResultContent
    rw [h1, h2, h3, h4, h5, h6]
    rfl

/-- Witness for the amended C6 order theorem at concrete inputs. -/
theorem C6_strategy5_order_witness :
    inferFromResultContent "123456-78901" = some "employeeCount" ∧
    inferFromResultContent "+1 (555) 123-4567" = some "phone" :=
  ⟨C6_strategy5_order.1 "123456-78901" (by decide) (by decide),
   C6_strategy5_order.2 "+1 (555) 123-4567" (by decide) (by decide) (by decide)
     (by decide) (by decide) (by decide)⟩

/-- Claim C7: an explicit `metadata.field` tag naming a known taxonomy key is
trusted outright — the resolver returns that key whatever the description,
format, and result content are. -/
theorem C7_metadata_tag_precedence (e : ExaEnrichment) (k : String)
    (hm : e.metadataField = some k) (hk : isEnrichmentField k = true) :
    extractFieldFromEnrichment e = some k := by
  have hne : jsTruthy k = true := by
    by_contra h
    have : k = "" := by
      by_contra h2
      exact h (by simpa [jsTruthy] using h2)
    rw [this] at hk
    exact absurd hk (by decide)
  unfold extractFieldFromEnrichment
  rw [hm]
  simp [hne, hk]

/-- Witness for C7: a date-shaped value tagged `phone` still resolves to
`phone`. -/
theorem C7_metadata_tag_precedence_witness :
    extractFieldFromEnrichment
        ⟨some "phone", "", none, some ["January 5, 2024"], "completed"⟩ =
      some "phone" :=
  C7_metadata_tag_precedence _ "phone" rfl (by decide)

/-- Claim C8: employee-count normalization keeps (trimmed) strict-range
inputs unchanged, buckets the first number of any other input exactly by the
spec's boundary table, yields the unset sentinel when the input has no
digits, and in particular maps `"37"` to `"11-50"` and `"501-1000"` to
itself. -/
theorem C8_normalizeEmployeeCount_buckets :
    (∀ s : String, s ≠ "" → isRangeForm (jsTrim s) = true →
      normalizeEmployeeCount s = some (jsTrim s)) ∧
    (∀ (s : String) (ds : List Char), s ≠ "" → isRangeForm (jsTrim s) = false →
      firstNumberChars (jsTrim s).data = some ds →
      normalizeEmployeeCount s = some (specEmployeeBucket (digitsToNat ds))) ∧
    (∀ s : String, (∀ c ∈ s.data, c.isDigit = false) →
      normalizeEmployeeCount s = none) ∧
    normalizeEmployeeCount "37" = some "11-50" ∧
    normalizeEmployeeCount "501-1000" = some "501-1000" := by
  refine ⟨?_, ?_, ?_, by decide, by decide⟩
  · intro s hne hrange
    unfold normalizeEmployeeCount
    rw [if_neg hne, if_pos hrange]
  · intro s ds hne hrange hfirst
    unfold normalizeEmployeeCount
    rw [if_neg hne, hrange, hfirst]
    simp only [Bool.false_eq_true, if_false, specEmployeeBucket]
    split_ifs <;> rfl
  · intro s hnd
    by_cases hne : s = ""
    · rw [hne]; rfl
    · unfold normalizeEmployeeCount
      have htrim : ∀ c ∈ (jsTrim s).data, c.isDigit = false :=
        fun c hc => hnd c (mem_jsTrim hc)
      rw [if_neg hne]
      rw [show isRangeForm (jsTrim s) = false from isRangeFormChars_eq_false htrim]
      rw [firstNumberChars_eq_none htrim]
      rfl

/-- Witness for C8 at concrete inputs, including a bucketed free-text one. -/
theorem C8_normalizeEmployeeCount_buckets_witness :
    normalizeEmployeeCount "about 350 staff" =
      some (specEmployeeBucket (digitsToNat ['3', '5', '0'])) ∧
    normalizeEmployeeCount "no size information" = none :=
  ⟨C8_normalizeEmployeeCount_buckets.2.1 "about 350 staff" ['3', '5', '0']
      (by decide) (by decide) (by decide),
   C8_normalizeEmployeeCount_buckets.2.2.1 "no size information" (by decide)⟩

/-! ### Stable descending sort by a numeric key

Models `array.sort((a, b) => new Date(b.createdAt || 0) - new Date(a.createdAt || 0))`:
a stable sort, descending by the parsed `createdAt` timestamp. -/

/-- Insert into a descending-sorted list, before the first element whose key
is not larger (so earlier-listed elements win ties, as in a stable sort). -/
def insertByKeyDesc {α : Type} (key : α → Nat) (r : α) : List α → List α
  | [] => [r]
  | x :: xs => if key x ≤ key r then r :: x :: xs else x :: insertByKeyDesc key r xs

/-- Stable insertion sort, descending by `key`. -/
def sortByKeyDesc {α : Type} (key : α → Nat) : List α → List α
  | [] => []
  | x :: xs => insertByKeyDesc key x (sortByKeyDesc key xs)

theorem mem_insertByKeyDesc {α : Type} {key : α → Nat} {r y : α} :
    ∀ {l : List α}, (y ∈ insertByKeyDesc key r l ↔ y = r ∨ y ∈ l) := by
  intro l
  induction l with
  | nil => simp [insertByKeyDesc]
  | cons x xs ih =>
    unfold insertByKeyDesc
    split
    · simp
    · simp only [List.mem_cons, ih]
      tauto

theorem mem_sortByKeyDesc {α : Type} {key : α → Nat} {y : α} :
    ∀ {l : List α}, (y ∈ sortByKeyDesc key l ↔ y ∈ l) := by
  intro l
  induction l with
  | nil => simp [sortByKeyDesc]
  | cons x xs ih =>
    unfold sortByKeyDesc
    rw [mem_insertByKeyDesc]
    simp [ih]

theorem sortByKeyDesc_head_max {α : Type} {key : α → Nat} :
    ∀ {l : List α} {h : α} {rest : List α},
      sortByKeyDesc key l = h :: rest → ∀ y ∈ l, key y ≤ key h := by
  intro l
  induction l with
  | nil => intro h rest heq; cases heq
  | cons x xs ih =>
    intro h rest heq y hy
    unfold sortByKeyDesc at heq
    rcases hs : sortByKeyDesc key xs with _ | ⟨h', rest'⟩
    · rw [hs] at heq
      unfold insertByKeyDesc at heq
      cases heq
      rcases List.mem_cons.mp hy with rfl | hy'
      · exact le_refl _
      · exact absurd (mem_sortByKeyDesc.mpr hy') (by rw [hs]; simp)
    · rw [hs] at heq
      unfold insertByKeyDesc at heq
      split at heq
      · next hle =>
        cases heq
        rcases List.mem_cons.mp hy with rfl | hy'
        · exact le_refl _
        · exact le_trans (ih hs y hy') hle
      · next hgt =>
        cases heq
        rcases List.mem_cons.mp hy with rfl | hy'
        · exact le_of_not_le hgt
        · exact ih hs y hy'

theorem sortByKeyDesc_head?_max {α : Type} {key : α → Nat} {l : List α} {h : α}
    (hh : (sortByKeyDesc key l).head? = some h) : ∀ y ∈ l, key y ≤ key h := by
  intro y hy
  rcases hs : sortByKeyDesc key l with _ | ⟨hd, rest⟩
  · rw [hs] at hh; cases hh
  · rw [hs] at hh
    simp only [List.head?_cons, Option.some.injEq] at hh
    exact hh ▸ sortByKeyDesc_head_max hs y hy

theorem sortByKeyDesc_head?_mem {α : Type} {key : α → Nat} {l : List α} {h : α}
    (hh : (sortByKeyDesc key l).head? = some h) : h ∈ l := by
  rcases hs : sortByKeyDesc key l with _ | ⟨hd, rest⟩
  · rw [hs] at hh; cases hh
  · rw [hs] at hh
    simp only [List.head?_cons, Option.some.injEq] at hh
    refine (@mem_sortByKeyDesc _ key _ _).mp ?_
    rw [hs, hh]
    exact List.mem_cons_self _ _

theorem sortByKeyDesc_head?_none {α : Type} {key : α → Nat} {l : List α}
    (hh : (sortByKeyDesc key l).head? = none) : l = [] := by
  rcases hl : l with _ | ⟨x, xs⟩
  · rfl
  · exfalso
    have hx : x ∈ sortByKeyDesc key l := mem_sortByKeyDesc.mpr (by rw [hl]; simp)
    rcases hs : sortByKeyDesc key l with _ | ⟨hd, rest⟩
    · rw [hs] at hx; cases hx
    · rw [hs] at hh; cases hh

/-! ### Feed aggregator (`rebuildLeadsetFeed`) -/

/-- A store document as the feed aggregator sees it: its `doc_type`, id,
`leadsetId`, parsed `createdAt` timestamp, and the rest of its content as an
opaque body. -/
structure StoreDoc where
  docType : String
  id : String
  leadsetId : String
  createdAt : Nat
  body : String
  deriving DecidableEq

/-- One entry of the feed's `leadsetDetails` map. -/
structure LeadsetDetail where
  leadset : StoreDoc
  run : Option StoreDoc
  items : List StoreDoc
  deriving DecidableEq

/-- The feed payload content (the constant `doc_type: 'leadsetFeed'` /
`id: 'global'` header fields are omitted). -/
structure FeedPayload where
  updatedAt : String
  leadsets : List StoreDoc
  leadsetDetails : List (String × LeadsetDetail)
  settings : Option StoreDoc
  countLeadsets : Nat
  countRuns : Nat
  countItems : Nat
  deriving DecidableEq

/-- `rebuildLeadsetFeed`'s payload construction over the scanned documents:
filter by `doc_type`, group runs/items by `leadsetId` (grouping by a fold
preserves the scan order inside each group, so the per-leadset run list is
the order-preserving filter), pick each leadset's latest run as the head of
the stable descending sort by `createdAt`, and assemble the snapshot with
counts and the current timestamp. -/
def buildFeedPayload (allDocs : List StoreDoc) (now : String) : FeedPayload :=
  { updatedAt := now
    leadsets := allDocs.filter (fun d => d.docType = "leadsets")
    leadsetDetails := (allDocs.filter (fun d => d.docType = "leadsets")).map fun ls =>
      (ls.id,
       { leadset := ls
         run := (sortByKeyDesc StoreDoc.createdAt
           ((allDocs.filter (fun d => d.docType = "runs")).filter
             (fun r => r.leadsetId = ls.id))).head?
         items := (allDocs.filter (fun d => d.docType = "items")).filter
           (fun it => it.leadsetId = ls.id) })
    settings := allDocs.find? (fun d => d.docType = "settings")
    countLeadsets := (allDocs.filter (fun d => d.docType = "leadsets")).length
    countRuns := (allDocs.filter (fun d => d.docType = "runs")).length
    countItems := (allDocs.filter (fun d => d.docType = "items")).length }

/-- The feed payload with its rebuild timestamp blanked out. -/
def eraseUpdatedAt (p : FeedPayload) : FeedPayload := { p with updatedAt := "" }

/-! ### Claim C9 -/

/-- Claim C9 counterexample: the feed payload embeds the rebuild wall-clock
timestamp (`updatedAt: new Date().toISOString()`), so two consecutive
rebuilds over the identical document set — here even the empty set — produce
different snapshot content whenever their timestamps differ; the content is
not byte-for-byte equal. -/
theorem C9_counterexample :
    buildFeedPayload [] "2024-01-01T00:00:00.000Z" ≠
      buildFeedPayload [] "2024-01-01T00:00:00.001Z" := by
  decide

/-- Claim C9 amended: the feed aggregator is deterministic over its inputs
except for the embedded `updatedAt` timestamp — two rebuilds over the same
document list agree on every other component — and the run it selects for
each leadset is a stored run of that leadset with maximal `createdAt`
(`none` exactly when the leadset has no runs). -/
theorem C9_feed_determinism (allDocs : List StoreDoc) (n1 n2 : String) :
    eraseUpdatedAt (buildFeedPayload allDocs n1) =
      eraseUpdatedAt (buildFeedPayload allDocs n2) ∧
    (∀ p ∈ (buildFeedPayload allDocs n1).leadsetDetails,
      (∀ r, p.2.run = some r →
        r ∈ allDocs ∧ r.docType = "runs" ∧ r.leadsetId = p.1 ∧
        ∀ r' ∈ allDocs, r'.docType = "runs" → r'.leadsetId = p.1 →
          r'.createdAt ≤ r.createdAt) ∧
      (p.2.run = none →
        ∀ r' ∈ allDocs, r'.docType = "runs" → r'.leadsetId = p.1 → False)) := by
  constructor
  · rfl
  · intro p hp
    rcases List.mem_map.mp hp with ⟨ls, hls, hpe⟩
    subst hpe
    simp only
    constructor
    · intro r hr
      have hmem := sortByKeyDesc_head?_mem hr
      have h1 := List.mem_filter.mp hmem
      have h2 := List.mem_filter.mp h1.1
      refine ⟨h2.1, by simpa using h2.2, by simpa using h1.2, ?_⟩
      intro r' hr' hty hlid
      have hr'mem : r' ∈ (allDocs.filter (fun d => d.docType = "runs")).filter
          (fun r => r.leadsetId = ls.id) :=
        List.mem_filter.mpr ⟨List.mem_filter.mpr ⟨hr', by simpa using hty⟩,
          by simpa using hlid⟩
      exact sortByKeyDesc_head?_max hr r' hr'mem
    · intro hnone r' hr' hty hlid
      have hr'mem : r' ∈ (allDocs.filter (fun d => d.docType = "runs")).filter
          (fun r => r.leadsetId = ls.id) :=
        List.mem_filter.mpr ⟨List.mem_filter.mpr ⟨hr', by simpa using hty⟩,
          by simpa using hlid⟩
      rcases hhead : (sortByKeyDesc StoreDoc.createdAt
          ((allDocs.filter (fun d => d.docType = "runs")).filter
            (fun r => r.leadsetId = ls.id))).head? with _ | r0
      · have := sortByKeyDesc_head?_none hhead
        rw [this] at hr'mem
        cases hr'mem
      · rw [hnone] at hhead; cases hhead

/-- Witness for the amended C9 determinism/selection theorem on a concrete
two-run document set. -/
theorem C9_feed_determinism_witness :
    eraseUpdatedAt (buildFeedPayload
        [⟨"leadsets", "ls1", "", 0, "seed"⟩,
         ⟨"runs", "run_1", "ls1", 10, "r1"⟩,
         ⟨"runs", "run_2", "ls1", 20, "r2"⟩] "t1") =
      eraseUpdatedAt (buildFeedPayload
        [⟨"leadsets", "ls1", "", 0, "seed"⟩,
         ⟨"runs", "run_1", "ls1", 10, "r1"⟩,
         ⟨"runs", "run_2", "ls1", 20, "r2"⟩] "t2") ∧
    (⟨"runs", "run_1", "ls1", 10, "r1"⟩ : StoreDoc).createdAt ≤
      (⟨"runs", "run_2", "ls1", 20, "r2"⟩ : StoreDoc).createdAt :=
  ⟨(C9_feed_determinism
      [⟨"leadsets", "ls1", "", 0, "seed"⟩,
       ⟨"runs", "run_1", "ls1", 10, "r1"⟩,
       ⟨"runs", "run_2", "ls1", 20, "r2"⟩] "t1" "t2").1,
   (((C9_feed_determinism
      [⟨"leadsets", "ls1", "", 0, "seed"⟩,
       ⟨"runs", "run_1", "ls1", 10, "r1"⟩,
       ⟨"runs", "run_2", "ls1", 20, "r2"⟩] "t1" "t2").2
      ("ls1", ⟨⟨"leadsets", "ls1", "", 0, "seed"⟩,
        some ⟨"runs", "run_2", "ls1", 20, "r2"⟩, []⟩) (by decide)).1
      ⟨"runs", "run_2", "ls1", 20, "r2"⟩ (by decide)).2.2.2
      ⟨"runs", "run_1", "ls1", 10, "r1"⟩ (by decide) (by decide) (by decide)⟩

/-! ### Run controller (`POST /leadsets/:leadsetId/run` and run status writes) -/

/-- A run's counters `{found, enriched, selected, analyzed}`. -/
structure RunCounters where
  found : Nat
  enriched : Nat
  selected : Nat
  analyzed : Nat
  deriving DecidableEq

/-- A `runs` document. `createdAt` is the parsed ISO timestamp. -/
structure RunDoc where
  id : String
  leadsetId : String
  websetId : Option String
  status : String
  mode : String
  requestedCount : Nat
  searchId : Option String
  counters : RunCounters
  searchQuery : String
  createdAt : Nat
  deriving DecidableEq

/-- A `leadsets` document, with the facets the run controller reads
(`segment.segment_archetype`, `segment.geo_region`,
`segment.firmographic_company_size`, `segment.tribe`, `intent.signals`
flattened; absent nested values model as `""` / `[]`). -/
structure Leadset where
  id : String
  name : String
  description : String
  archetype : String
  geoRegion : String
  sizeBand : String
  tribe : List String
  intentSignals : List String
  websetId : Option String
  status : String
  lastRunId : Option String
  enrichmentFields : Option (List String)
  deriving DecidableEq

/-- The parts of an `items` document the run controller reads. -/
structure ItemRef where
  id : String
  runId : String
  deriving DecidableEq

/-- The slice of the document store the run controller operates on. -/
structure StoreState where
  leadsets : List Leadset
  runs : List RunDoc
  items : List ItemRef
  deriving DecidableEq

/-- `array.join(sep)`. -/
def joinSep (sep : String) : List String → String
  | [] => ""
  | [x] => x
  | x :: y :: xs => x ++ sep ++ joinSep sep (y :: xs)

/-- The `queryParts` array: facets pushed in fixed order when truthy. -/
def queryParts (l : Leadset) : List String :=
  (if jsTruthy l.description then [l.description] else []) ++
  (if jsTruthy l.archetype then [l.archetype] else []) ++
  (if jsTruthy l.geoRegion then ["in " ++ l.geoRegion] else []) ++
  (if jsTruthy l.sizeBand then [l.sizeBand ++ " size"] else []) ++
  (if !l.tribe.isEmpty then ["focusing on " ++ joinSep ", " l.tribe] else []) ++
  (if !l.intentSignals.isEmpty then
    ["showing intent for " ++ joinSep ", " l.intentSignals] else [])

/-- `queryParts.join('. ') || leadset.name || 'companies'`. -/
def buildSearchQuery (l : Leadset) : String :=
  let joined := joinSep ". " (queryParts l)
  if jsTruthy joined then joined
  else if jsTruthy l.name then l.name
  else "companies"

/-- Outcome of `POST /leadsets/:leadsetId/run`: leadset missing (404), the
`EXISTING_WEBSET` conflict (409) with the existing webset id, latest run id
and its item count, the `NO_EXISTING_WEBSET` rejection (400) for extend
without a session, or the created run (201). -/
inductive StartRunResult where
  | leadsetNotFound
  | conflict (existingWebsetId : String) (existingRunId : Option String)
      (itemCount : Nat)
  | noExistingWebset
  | started (run : RunDoc)
  deriving DecidableEq

/-- The route's `latestRun`: head of the leadset's runs sorted by
`createdAt` descending (stable). -/
def latestRunFor (st : StoreState) (leadsetId : String) : Option RunDoc :=
  (sortByKeyDesc RunDoc.createdAt
    (st.runs.filter (fun r => r.leadsetId = leadsetId))).head?

/-- The route's `existingWebsetId`: `latestRun?.websetId || leadset.websetId`. -/
def existingWebsetIdFor (st : StoreState) (leadset : Leadset)
    (leadsetId : String) : Option String :=
  orTruthy ((latestRunFor st leadsetId).bind RunDoc.websetId) leadset.websetId

/-- The route's `itemCount`: items belonging to the latest run. -/
def itemCountFor (st : StoreState) (leadsetId : String) : Nat :=
  match latestRunFor st leadsetId with
  | some lr => (st.items.filter (fun it => it.runId = lr.id)).length
  | none => 0

/-- The item list after the `replace`-mode deletion of the latest run's
items (unchanged in every other mode). -/
def itemsAfterReplace (st : StoreState) (leadset : Leadset)
    (leadsetId mode : String) : List ItemRef :=
  if mode = "replace" && jsTruthyO (existingWebsetIdFor st leadset leadsetId) then
    match latestRunFor st leadsetId with
    | some lr => st.items.filter (fun it => !(it.runId = lr.id))
    | none => st.items
  else st.items

/-- The run-start route once the leadset is loaded. Provider interaction is
abstracted by the inputs `newWebsetId` (the id of the webset the provider
would create for a non-extend run) and `newSearchId` (the sub-search id for
extend); `newRunId` is the generated run id and `now` the clock reading used
for `createdAt`. Returns the HTTP-level outcome and the successor store
state. -/
def startRunFound (st : StoreState) (leadset : Leadset) (leadsetId mode : String)
    (force : Bool) (requestedCount : Nat) (newWebsetId newSearchId newRunId : String)
    (now : Nat) : StartRunResult × StoreState :=
  if jsTruthyO (existingWebsetIdFor st leadset leadsetId) && mode = "new" && !force then
    (.conflict ((existingWebsetIdFor st leadset leadsetId).getD "")
      ((latestRunFor st leadsetId).map RunDoc.id) (itemCountFor st leadsetId), st)
  else if mode = "extend" && !(jsTruthyO (existingWebsetIdFor st leadset leadsetId)) then
    (.noExistingWebset,
     { st with items := itemsAfterReplace st leadset leadsetId mode })
  else
    (.started
      { id := newRunId
        leadsetId := leadsetId
        websetId := some (if mode = "extend" then
          (existingWebsetIdFor st leadset leadsetId).getD "" else newWebsetId)
        status := "running"
        mode := mode
        requestedCount := requestedCount
        searchId := if mode = "extend" then some newSearchId else none
        counters := ⟨0, 0, 0, 0⟩
        searchQuery := buildSearchQuery leadset
        createdAt := now },
     { leadsets := st.leadsets.map fun l =>
         if l.id = leadsetId then
           { l with lastRunId := some newRunId
                    websetId := some (if mode = "extend" then
                      (existingWebsetIdFor st leadset leadsetId).getD ""
                      else newWebsetId)
                    status := "running" }
         else l
       runs :=
         { id := newRunId
           leadsetId := leadsetId
           websetId := some (if mode = "extend" then
             (existingWebsetIdFor st leadset leadsetId).getD "" else newWebsetId)
           status := "running"
           mode := mode
           requestedCount := requestedCount
           searchId := if mode = "extend" then some newSearchId else none
           counters := ⟨0, 0, 0, 0⟩
           searchQuery := buildSearchQuery leadset
           createdAt := now } :: st.runs
       items := itemsAfterReplace st leadset leadsetId mode })

/-- `POST /leadsets/:leadsetId/run`: load the leadset (404 when missing) and
run the conflict / replace / extend / create logic. -/
def startRun (st : StoreState) (leadsetId mode : String) (force : Bool)
    (requestedCount : Nat) (newWebsetId newSearchId newRunId : String)
    (now : Nat) : StartRunResult × StoreState :=
  match st.leadsets.find? (fun l => l.id = leadsetId) with
  | none => (.leadsetNotFound, st)
  | some leadset =>
    startRunFound st leadset leadsetId mode force requestedCount newWebsetId
      newSearchId newRunId now

/-- The run statuses the spec's data model allows. -/
def SPEC_RUN_STATUSES : List String :=
  ["running", "enriching", "canceled", "completed", "failed"]

/-- The terminal run statuses. -/
def TERMINAL_RUN_STATUSES : List String := ["completed", "failed", "canceled"]

/-- Number of runs of a leadset whose status is non-terminal. -/
def countNonTerminalRuns (runs : List RunDoc) (leadsetId : String) : Nat :=
  (runs.filter (fun r =>
    r.leadsetId = leadsetId && !(TERMINAL_RUN_STATUSES.contains r.status))).length

/-- Run update applied by the enrichment status route once every provider
request completed: status `idle`, `enriched` counter increased by the number
of items enriched. -/
def enrichStatusRouteRunUpdate (r : RunDoc) (enrichedCount : Nat) : RunDoc :=
  { r with status := "idle"
           counters := { r.counters with
             enriched := r.counters.enriched + enrichedCount } }

/-- Run update applied by the webhook `webset.enrichment.completed` handler:
status `idle`, `enriched` counter incremented atomically. -/
def webhookEnrichRunUpdate (r : RunDoc) (enrichedCount : Nat) : RunDoc :=
  { r with status := "idle"
           counters := { r.counters with
             enriched := r.counters.enriched + enrichedCount } }

/-- Status written to the run by the webset polling route: provider `idle`
maps to `completed`, any other provider-reported status is mirrored
verbatim. -/
def pollWebsetRunStatus (websetStatus : String) : String :=
  if websetStatus = "idle" then "completed" else websetStatus

/-! ### Claims C3, C4, C5 -/

/-- Claim C3 counterexample: a leadset with one still-`running` run; starting
a run with `mode=new, force=true` creates a second `running` run and leaves
the first untouched, so the store now holds two non-terminal runs for the
same leadset. -/
theorem C3_counterexample :
    countNonTerminalRuns
      ((startRun
        ⟨[⟨"ls1", "Acme targets", "", "", "", "", [], [], some "ws1",
           "running", some "run_1", none⟩],
         [⟨"run_1", "ls1", some "ws1", "running", "new", 10, none,
           ⟨0, 0, 0, 0⟩, "Acme targets", 10⟩],
         []⟩
        "ls1" "new" true 10 "ws2" "" "run_2" 20).2).runs "ls1" = 2 := by
  decide

/-- Claim C3 amended: the one-non-terminal-run-per-leadset rule is enforced
only by the `mode=new, force=false` conflict gate. `startRun` never changes
the status of a pre-existing run, and with `mode=new, force=true` it always
creates a fresh `running` run; on a leadset that still has a non-terminal
run this leaves at least two non-terminal runs. -/
theorem C3_forced_start_two_nonterminal (st : StoreState) (leadsetId : String)
    (requestedCount : Nat) (newWebsetId newSearchId newRunId : String) (now : Nat)
    (L : Leadset) (r : RunDoc)
    (hfind : st.leadsets.find? (fun l => l.id = leadsetId) = some L)
    (hr : r ∈ st.runs) (hlid : r.leadsetId = leadsetId)
    (hnt : TERMINAL_RUN_STATUSES.contains r.status = false) :
    (∀ r' ∈ st.runs,
      r' ∈ (startRun st leadsetId "new" true requestedCount newWebsetId
        newSearchId newRunId now).2.runs) ∧
    2 ≤ countNonTerminalRuns
      ((startRun st leadsetId "new" true requestedCount newWebsetId
        newSearchId newRunId now).2).runs leadsetId := by
  have hfull : startRun st leadsetId "new" true requestedCount newWebsetId
      newSearchId newRunId now =
      startRunFound st L leadsetId "new" true requestedCount newWebsetId
        newSearchId newRunId now := by
    unfold startRun
    rw [hfind]
  have hc : ∀ b : Bool, (b && decide (("new" : String) = "new") && !true) = false := by
    decide
  have hstart : startRunFound st L leadsetId "new" true requestedCount newWebsetId
      newSearchId newRunId now =
      (.started
        { id := newRunId, leadsetId := leadsetId, websetId := some newWebsetId,
          status := "running", mode := "new", requestedCount := requestedCount,
          searchId := none, counters := ⟨0, 0, 0, 0⟩,
          searchQuery := buildSearchQuery L, createdAt := now },
       { leadsets := st.leadsets.map (fun l =>
           if l.id = leadsetId then
             { l with lastRunId := some newRunId, websetId := some newWebsetId,
                      status := "running" }
           else l),
         runs := (⟨newRunId, leadsetId, some newWebsetId, "running", "new",
           requestedCount, none, ⟨0, 0, 0, 0⟩, buildSearchQuery L, now⟩ :
             RunDoc) :: st.runs,
         items := st.items }) := by
    unfold startRunFound
    rw [hc]
    rfl
  have h2 := hfull.trans hstart
  constructor
  · intro r' hr'
    rw [h2]
    exact List.mem_cons_of_mem _ hr'
  · rw [h2]
    have hrmem : r ∈ st.runs.filter (fun r =>
        r.leadsetId = leadsetId && !(TERMINAL_RUN_STATUSES.contains r.status)) :=
      List.mem_filter.mpr ⟨hr, by simp [hlid]; simpa using hnt⟩
    have hpos : 0 < (st.runs.filter (fun r =>
        r.leadsetId = leadsetId && !(TERMINAL_RUN_STATUSES.contains r.status))).length :=
      List.length_pos.mpr (List.ne_nil_of_mem hrmem)
    show 2 ≤ countNonTerminalRuns
      ({ id := newRunId, leadsetId := leadsetId, websetId := some newWebsetId,
         status := "running", mode := "new", requestedCount := requestedCount,
         searchId := none, counters := ⟨0, 0, 0, 0⟩,
         searchQuery := buildSearchQuery L, createdAt := now } :: st.runs) leadsetId
    unfold countNonTerminalRuns
    rw [List.filter_cons]
    rw [if_pos (show (decide (leadsetId = leadsetId) &&
        !(TERMINAL_RUN_STATUSES.contains "running")) = true by
      rw [show TERMINAL_RUN_STATUSES.contains "running" = false from by decide]
      simp)]
    rw [List.length_cons]
    omega

/-- Witness for the amended C3 theorem on the concrete one-running-run
store. -/
theorem C3_forced_start_two_nonterminal_witness :
    2 ≤ countNonTerminalRuns
      ((startRun
        ⟨[⟨"ls1", "Acme targets", "", "", "", "", [], [], some "ws1",
           "running", some "run_1", none⟩],
         [⟨"run_1", "ls1", some "ws1", "running", "new", 10, none,
           ⟨0, 0, 0, 0⟩, "Acme targets", 10⟩],
         []⟩
        "ls1" "new" true 7 "ws9" "" "run_9" 99).2).runs "ls1" :=
  (C3_forced_start_two_nonterminal _ "ls1" 7 "ws9" "" "run_9" 99
    ⟨"ls1", "Acme targets", "", "", "", "", [], [], some "ws1",
      "running", some "run_1", none⟩
    ⟨"run_1", "ls1", some "ws1", "running", "new", 10, none,
      ⟨0, 0, 0, 0⟩, "Acme targets", 10⟩
    (by decide) (by decide) (by decide) (by decide)).2

/-- Claim C4 counterexample: the run update applied by the webhook
enrichment-completed handler writes status `idle`, which is outside the
spec's closed five-value run-status set. -/
theorem C4_counterexample :
    SPEC_RUN_STATUSES.contains
      (webhookEnrichRunUpdate
        ⟨"run_1", "ls1", some "ws1", "enriching", "new", 10, none,
          ⟨5, 0, 0, 0⟩, "q", 10⟩ 3).status = false := by
  decide

/-- Claim C4 amended: run statuses are not confined to the five-value set
{running, enriching, canceled, completed, failed}: both enrichment-completion
paths (the polled enrichment-status route and the webhook handler) write
status `idle`, and the webset polling sync mirrors the provider's webset
status verbatim whenever it is not `idle` (mapping provider-`idle` to
`completed`). -/
theorem C4_idle_status_written :
    (∀ (r : RunDoc) (n : Nat), (webhookEnrichRunUpdate r n).status = "idle") ∧
    (∀ (r : RunDoc) (n : Nat), (enrichStatusRouteRunUpdate r n).status = "idle") ∧
    SPEC_RUN_STATUSES.contains "idle" = false ∧
    (∀ ws : String, pollWebsetRunStatus ws =
      if ws = "idle" then "completed" else ws) ∧
    pollWebsetRunStatus "idle" = "completed" := by
  refine ⟨fun r n => rfl, fun r n => rfl, by decide, fun ws => rfl, by decide⟩

/-- Witness for the amended C4 theorem at a concrete run. -/
theorem C4_idle_status_written_witness :
    (enrichStatusRouteRunUpdate
      ⟨"run_1", "ls1", some "ws1", "enriching", "new", 10, none,
        ⟨5, 0, 0, 0⟩, "q", 10⟩ 2).status = "idle" :=
  C4_idle_status_written.2.1
    ⟨"run_1", "ls1", some "ws1", "enriching", "new", 10, none,
      ⟨5, 0, 0, 0⟩, "q", 10⟩ 2

/-- Claim C5: with `mode=new, force=false` on a leadset whose latest run
exists and carries a webset id (every run the controller writes does), and
which still has a non-terminal run, `startRun` returns the conflict outcome
carrying that webset id, the latest run's id, and the item count of that
run, and leaves the store untouched. -/
theorem C5_conflict_on_nonterminal (st : StoreState) (leadsetId : String)
    (requestedCount : Nat) (newWebsetId newSearchId newRunId : String) (now : Nat)
    (L : Leadset) (latest : RunDoc)
    (hfind : st.leadsets.find? (fun l => l.id = leadsetId) = some L)
    (hnonterm : ∃ r ∈ st.runs, r.leadsetId = leadsetId ∧
      TERMINAL_RUN_STATUSES.contains r.status = false)
    (hlatest : latestRunFor st leadsetId = some latest)
    (hws : jsTruthyO latest.websetId = true) :
    startRun st leadsetId "new" false requestedCount newWebsetId newSearchId
        newRunId now =
      (.conflict (latest.websetId.getD "") (some latest.id)
        ((st.items.filter (fun it => it.runId = latest.id)).length), st) := by
  have hfull : startRun st leadsetId "new" false requestedCount newWebsetId
      newSearchId newRunId now =
      startRunFound st L leadsetId "new" false requestedCount newWebsetId
        newSearchId newRunId now := by
    unfold startRun
    rw [hfind]
  have hE : existingWebsetIdFor st L leadsetId = latest.websetId := by
    unfold existingWebsetIdFor
    rw [hlatest]
    unfold orTruthy
    rw [if_pos (show jsTruthyO ((some latest).bind RunDoc.websetId) = true from hws)]
    rfl
  rw [hfull]
  unfold startRunFound itemCountFor
  rw [hE, hws, hlatest]
  rfl

/-- Witness for C5 on a concrete store with one running run and one item. -/
theorem C5_conflict_on_nonterminal_witness :
    startRun
      ⟨[⟨"ls1", "Acme targets", "", "", "", "", [], [], some "ws1",
         "running", some "run_1", none⟩],
       [⟨"run_1", "ls1", some "ws1", "running", "new", 10, none,
         ⟨1, 0, 0, 0⟩, "Acme targets", 10⟩],
       [⟨"item_1", "run_1"⟩]⟩
      "ls1" "new" false 10 "ws2" "" "run_2" 20 =
    (.conflict "ws1" (some "run_1") 1,
     ⟨[⟨"ls1", "Acme targets", "", "", "", "", [], [], some "ws1",
        "running", some "run_1", none⟩],
      [⟨"run_1", "ls1", some "ws1", "running", "new", 10, none,
        ⟨1, 0, 0, 0⟩, "Acme targets", 10⟩],
      [⟨"item_1", "run_1"⟩]⟩) :=
  C5_conflict_on_nonterminal _ "ls1" 10 "ws2" "" "run_2" 20
    ⟨"ls1", "Acme targets", "", "", "", "", [], [], some "ws1",
      "running", some "run_1", none⟩
    ⟨"run_1", "ls1", some "ws1", "running", "new", 10, none,
      ⟨1, 0, 0, 0⟩, "Acme targets", 10⟩
    (by decide)
    ⟨⟨"run_1", "ls1", some "ws1", "running", "new", 10, none,
      ⟨1, 0, 0, 0⟩, "Acme targets", 10⟩, by decide, by decide, by decide⟩
    (by decide) (by decide)

/-! ### Item enrichment submap writes (status route merge vs webhook) -/

/-- An item's `enrichment` submap as stored: JS object keys in insertion
order; a `none` value models a stored JS `null`. -/
abbrev EnrichMap := List (String × Option String)

/-- JS object spread `{...a, ...b}`: the keys of `a` in order with values
overridden by `b` where present, followed by the keys of `b` absent from
`a`, in order. -/
def objMerge (a b : EnrichMap) : EnrichMap :=
  (a.map fun kv => (kv.1,
    match b.lookup kv.1 with
    | some v => v
    | none => kv.2)) ++
  b.filter (fun kv => (a.lookup kv.1).isNone)

/-- The enrichment-status route's per-item update (the `updatedEnrichment`
object): `{...existingEnrichment, ...fieldUpdates, status: 'done'}`, merged
field-by-field. -/
def mergedEnrichment (existing fieldUpdates : EnrichMap) : EnrichMap :=
  objMerge (objMerge existing fieldUpdates) [("status", some "done")]

/-- First entry of an enrichment's result array, when the array is present
and non-empty (the JS guard `enrichment.result && enrichment.result.length > 0`,
an empty array being truthy but failing the length test). -/
def resultHead (e : ExaEnrichment) : Option String :=
  match e.result with
  | some (x :: _) => some x
  | _ => none

/-- The email/phone/linkedinUrl triple the webhook enrichment-completed
handler accumulates over one item's enrichments. -/
structure ContactTriple where
  email : Option String
  phone : Option String
  linkedinUrl : Option String
  deriving DecidableEq

/-- One iteration of the webhook handler's loop over an item's enrichments:
format `email`/`phone` capture the first result entry; format `url` captures
it as the LinkedIn URL when it is truthy and mentions `linkedin.com`. -/
def webhookStep (acc : ContactTriple) (en : ExaEnrichment) : ContactTriple :=
  let a1 := if en.format = some "email" then
      match resultHead en with
      | some x => { acc with email := some x }
      | none => acc
    else acc
  let a2 := if en.format = some "phone" then
      match resultHead en with
      | some x => { a1 with phone := some x }
      | none => a1
    else a1
  if en.format = some "url" then
    match resultHead en with
    | some x =>
      if jsTruthy x && jsIncludes (jsToLower x) "linkedin.com" then
        { a2 with linkedinUrl := some x }
      else a2
    | none => a2
  else a2

/-- The webhook handler's scan over one item's enrichments array. -/
def webhookContactScan (ens : List ExaEnrichment) : ContactTriple :=
  ens.foldl webhookStep ⟨none, none, none⟩

/-- Modelled from the spec: the document-store `update` primitive (§6,
"update(partial-merge)") merges the supplied top-level document keys into the
stored document, each supplied key replacing the stored value for that key
wholesale, nested maps included; the store client itself (`@fn7/sdk-node`)
is an external collaborator outside `src/`. An update payload carrying an
`enrichment` key therefore replaces the stored enrichment submap with the
payload's. -/
def applyEnrichmentKeyUpdate (_stored newEnrichment : EnrichMap) : EnrichMap :=
  newEnrichment

/-- The webhook `webset.enrichment.completed` branch for one item: when any
of email/phone/linkedinUrl was found, write `enrichment` as the four-key
object `{status: 'done', email, phone, linkedinUrl}` (nulls included);
otherwise leave the item untouched. -/
def webhookEnrichmentApply (stored : EnrichMap) (ens : List ExaEnrichment) :
    EnrichMap :=
  if jsTruthyO (webhookContactScan ens).email ||
      jsTruthyO (webhookContactScan ens).phone ||
      jsTruthyO (webhookContactScan ens).linkedinUrl then
    applyEnrichmentKeyUpdate stored
      [("status", some "done"), ("email", (webhookContactScan ens).email),
       ("phone", (webhookContactScan ens).phone),
       ("linkedinUrl", (webhookContactScan ens).linkedinUrl)]
  else stored

/-! ### Lookup lemmas for the merge model -/

theorem lookup_append_enrich (l1 l2 : EnrichMap) (k : String) :
    (l1 ++ l2).lookup k =
      match l1.lookup k with
      | some v => some v
      | none => l2.lookup k := by
  induction l1 with
  | nil => simp [List.lookup]
  | cons kv t ih =>
    rcases kv with ⟨k1, v1⟩
    simp only [List.cons_append, List.lookup]
    cases hbeq : k == k1
    · simpa [hbeq] using ih
    · simp [hbeq]

theorem lookup_overrideMap (a b : EnrichMap) (k : String) :
    ((a.map fun kv => (kv.1,
      match b.lookup kv.1 with
      | some v => v
      | none => kv.2)).lookup k) =
      match a.lookup k with
      | some v => some (match b.lookup k with | some w => w | none => v)
      | none => none := by
  induction a with
  | nil => simp [List.lookup]
  | cons kv t ih =>
    rcases kv with ⟨k1, v1⟩
    simp only [List.map_cons, List.lookup]
    cases hbeq : k == k1
    · simpa [hbeq] using ih
    · have hk : k = k1 := eq_of_beq hbeq
      subst hk
      simp [hbeq]

theorem lookup_filterAbsent (a b : EnrichMap) (k : String) :
    ((b.filter fun kv => (a.lookup kv.1).isNone).lookup k) =
      match a.lookup k with
      | some _ => none
      | none => b.lookup k := by
  induction b with
  | nil =>
    cases a.lookup k <;> simp [List.lookup]
  | cons kv t ih =>
    rcases kv with ⟨k1, v1⟩
    rw [List.filter_cons]
    cases ha1 : (a.lookup k1).isNone
    · simp only [Bool.false_eq_true, if_false]
      rw [ih]
      cases hbeq : k == k1
      · cases ha : a.lookup k <;> simp [List.lookup, hbeq, ha]
      · have hk : k = k1 := eq_of_beq hbeq
        subst hk
        cases ha : a.lookup k
        · rw [ha] at ha1; simp at ha1
        · simp [ha]
    · simp only [if_true]
      cases hbeq : k == k1
      · simp only [List.lookup, hbeq]
        exact ih
      · have hk : k = k1 := eq_of_beq hbeq
        subst hk
        cases ha : a.lookup k
        · simp [List.lookup, hbeq]
        · rw [ha] at ha1; simp at ha1

theorem lookup_objMerge (a b : EnrichMap) (k : String) :
    (objMerge a b).lookup k =
      match a.lookup k with
      | some v => some (match b.lookup k with | some w => w | none => v)
      | none => b.lookup k := by
  unfold objMerge
  rw [lookup_append_enrich, lookup_overrideMap, lookup_filterAbsent]
  cases a.lookup k <;> rfl

/-! ### Claim C1 -/

/-- Claim C1 counterexample: an item stored with enrichment fields
`email = "ceo@acme.com"` and `buyingIntent = "high"` receives a webhook
enrichment-completed event carrying only a phone result; the handler
replaces the enrichment submap wholesale with
`{status, email: null, phone, linkedinUrl: null}`, so the stored
`buyingIntent` field is lost and the stored email is nulled out — the union
of fields from both paths is not preserved. -/
theorem C1_counterexample :
    ([("status", some "done"), ("email", some "ceo@acme.com"),
      ("buyingIntent", some "high")] : EnrichMap).lookup "buyingIntent" =
        some (some "high") ∧
    (webhookEnrichmentApply
      [("status", some "done"), ("email", some "ceo@acme.com"),
       ("buyingIntent", some "high")]
      [⟨none, "", some "phone", some ["+1 555 000 1111"], "completed"⟩]) =
      [("status", some "done"), ("email", none),
       ("phone", some "+1 555 000 1111"), ("linkedinUrl", none)] ∧
    (webhookEnrichmentApply
      [("status", some "done"), ("email", some "ceo@acme.com"),
       ("buyingIntent", some "high")]
      [⟨none, "", some "phone", some ["+1 555 000 1111"], "completed"⟩]).lookup
        "buyingIntent" = none ∧
    (webhookEnrichmentApply
      [("status", some "done"), ("email", some "ceo@acme.com"),
       ("buyingIntent", some "high")]
      [⟨none, "", some "phone", some ["+1 555 000 1111"], "completed"⟩]).lookup
        "email" = some none := by
  refine ⟨by decide, by decide, by decide, by decide⟩

/-- Claim C1 amended: only the enrichment-status route merges the enrichment
submap field-by-field — its `{...existing, ...fieldUpdates, status: 'done'}`
object keeps every stored field not overridden by an update and always sets
`status: 'done'` — whereas the webhook enrichment-completed handler, whenever
it found any contact value, writes the item's enrichment submap as exactly
the four keys `{status, email, phone, linkedinUrl}` (null for the contact
fields it did not find), dropping every other previously stored enrichment
field. -/
theorem C1_merge_fieldwise_vs_webhook_wholesale :
    (∀ (existing fieldUpdates : EnrichMap) (k : String), k ≠ "status" →
      (mergedEnrichment existing fieldUpdates).lookup k =
        match fieldUpdates.lookup k with
        | some v => some v
        | none => existing.lookup k) ∧
    (∀ existing fieldUpdates : EnrichMap,
      (mergedEnrichment existing fieldUpdates).lookup "status" =
        some (some "done")) ∧
    (∀ (stored : EnrichMap) (ens : List ExaEnrichment),
      (jsTruthyO (webhookContactScan ens).email ||
       jsTruthyO (webhookContactScan ens).phone ||
       jsTruthyO (webhookContactScan ens).linkedinUrl) = true →
      webhookEnrichmentApply stored ens =
        [("status", some "done"), ("email", (webhookContactScan ens).email),
         ("phone", (webhookContactScan ens).phone),
         ("linkedinUrl", (webhookContactScan ens).linkedinUrl)]) ∧
    (∀ (stored : EnrichMap) (ens : List ExaEnrichment) (k : String),
      (jsTruthyO (webhookContactScan ens).email ||
       jsTruthyO (webhookContactScan ens).phone ||
       jsTruthyO (webhookContactScan ens).linkedinUrl) = true →
      k ≠ "status" → k ≠ "email" → k ≠ "phone" → k ≠ "linkedinUrl" →
      (webhookEnrichmentApply stored ens).lookup k = none) := by
  have hwhole : ∀ (stored : EnrichMap) (ens : List ExaEnrichment),
      (jsTruthyO (webhookContactScan ens).email ||
       jsTruthyO (webhookContactScan ens).phone ||
       jsTruthyO (webhookContactScan ens).linkedinUrl) = true →
      webhookEnrichmentApply stored ens =
        [("status", some "done"), ("email", (webhookContactScan ens).email),
         ("phone", (webhookContactScan ens).phone),
         ("linkedinUrl", (webhookContactScan ens).linkedinUrl)] := by
    intro stored ens hcond
    unfold webhookEnrichmentApply
    rw [hcond]
    rfl
  refine ⟨?_, ?_, hwhole, ?_⟩
  · intro existing fieldUpdates k hk
    unfold mergedEnrichment
    rw [lookup_objMerge, lookup_objMerge]
    have hstat : (([("status", some "done")] : EnrichMap).lookup k) = none := by
      have : (k == "status") = false := by
        cases hb : k == "status"
        · rfl
        · exact absurd (eq_of_beq hb) hk
      simp [List.lookup, this]
    rw [hstat]
    cases existing.lookup k <;> cases fieldUpdates.lookup k <;> rfl
  · intro existing fieldUpdates
    unfold mergedEnrichment
    rw [lookup_objMerge, lookup_objMerge]
    have hstat : (([("status", some "done")] : EnrichMap).lookup "status") =
        some (some "done") := by decide
    rw [hstat]
    cases existing.lookup "status" <;> cases fieldUpdates.lookup "status" <;> rfl
  · intro stored ens k hcond h1 h2 h3 h4
    rw [hwhole stored ens hcond]
    have hb1 : (k == "status") = false := by
      cases hb : k == "status"
      · rfl
      · exact absurd (eq_of_beq hb) h1
    have hb2 : (k == "email") = false := by
      cases hb : k == "email"
      · rfl
      · exact absurd (eq_of_beq hb) h2
    have hb3 : (k == "phone") = false := by
      cases hb : k == "phone"
      · rfl
      · exact absurd (eq_of_beq hb) h3
    have hb4 : (k == "linkedinUrl") = false := by
      cases hb : k == "linkedinUrl"
      · rfl
      · exact absurd (eq_of_beq hb) h4
    simp [List.lookup, hb1, hb2, hb3, hb4]

/-- Witness for the amended C1 theorem at concrete maps and a concrete
webhook payload. -/
theorem C1_merge_fieldwise_vs_webhook_wholesale_witness :
    (mergedEnrichment
      [("status", some "enriching"), ("email", some "ceo@acme.com")]
      [("phone", some "+1 555 000 1111")]).lookup "email" =
        some (some "ceo@acme.com") ∧
    (mergedEnrichment
      [("status", some "enriching"), ("email", some "ceo@acme.com")]
      [("phone", some "+1 555 000 1111")]).lookup "status" =
        some (some "done") ∧
    (webhookEnrichmentApply
      [("buyingIntent", some "high")]
      [⟨none, "", some "phone", some ["+1 555 000 1111"], "completed"⟩]).lookup
        "buyingIntent" = none :=
  ⟨by
    rw [C1_merge_fieldwise_vs_webhook_wholesale.1 _ _ "email" (by decide)]
    decide,
   C1_merge_fieldwise_vs_webhook_wholesale.2.1 _ _,
   by
    rw [C1_merge_fieldwise_vs_webhook_wholesale.2.2.2 _ _ "buyingIntent"
      (by decide) (by decide) (by decide) (by decide) (by decide)]⟩

end Scout
